import Mathlib

/-!
Verification of `cyclone/locale.py` (locale matching, translation dispatch,
relative date formatting, list and number formatting).

The Python module is embedded shallowly:

* the process-wide globals `_default_locale`, `_translations`,
  `_supported_locales` (lines 48-50) become an explicit `Registry` record
  that the mutating operations transform;
* the gettext translator objects are external to the repository, so they
  are modelled from the spec as a `TranslationCatalog` record;
* Python `%`-interpolation of `%(name)s` / `%(name)d` placeholders is
  embedded as the scanner `pyFmtGo`;
* `datetime` arithmetic in `format_date` is abstracted into a `DateCtx`
  record holding exactly the quantities the function reads from the
  clock: `difference.days`, `difference.seconds` and the fields of
  `local_date` (see the comment on `DateCtx`).
-/

namespace Cyclone

/-- Modelled from the spec: the external gettext translation catalog (the
`gettext` module is not part of this repository's sources).  Per the spec,
a catalog supports `lookup(message)` and `lookupPlural(singular, plural,
count)` where `count == 1` selects the singular form and any other count
selects the plural form.  `pluralLookup s p b` is the catalog's rendering
of the pair `(s, p)` with `b = true` meaning the singular form. -/
structure TranslationCatalog where
  lookup : String → String
  pluralLookup : String → String → Bool → String

/-- Catalog method `gettext` (singular lookup). -/
def TranslationCatalog.gettext (t : TranslationCatalog) (message : String) : String :=
  t.lookup message

/-- Catalog method `ngettext`: count == 1 selects the singular form. -/
def TranslationCatalog.ngettext (t : TranslationCatalog) (message plural : String)
    (n : Nat) : String :=
  t.pluralLookup message plural (n == 1)

/-- Modelled from the spec: `gettext.NullTranslations()` (line 152), the
identity catalog: `lookup` returns the message unchanged and the plural
lookup returns whichever of the two input messages the count selects. -/
def nullTranslations : TranslationCatalog :=
  { lookup := fun m => m
    pluralLookup := fun s p b => if b then s else p }

/-- Python `sep.join(parts)`. -/
def pyJoin (sep : String) : List String → String
  | [] => ""
  | [x] => x
  | x :: y :: rest => x ++ sep ++ pyJoin sep (y :: rest)

/-- Scanner for Python `%`-interpolation restricted to the `%(name)s` /
`%(name)d` placeholders that appear in this module's templates.  The first
argument is the mapping dict; the `Option` argument is `none` while copying
literal characters and `some acc` while reading a placeholder name
(accumulated in reverse).  All dict values are pre-rendered strings (the
module only ever interpolates strings and integers).  A placeholder whose
name is missing from the dict, or an unterminated placeholder, is emitted
back literally; in the source these cases would be a `KeyError` and never
occur because every template is interpolated with a complete dict. -/
def pyFmtGo (env : List (String × String)) : Option (List Char) → List Char → List Char
  | none, [] => []
  | none, '%' :: '(' :: rest => pyFmtGo env (some []) rest
  | none, c :: rest => c :: pyFmtGo env none rest
  | some acc, [] => '%' :: '(' :: acc.reverse
  | some acc, ')' :: conv :: rest =>
      (((List.lookup (String.mk acc.reverse) env).map String.data).getD
        ('%' :: '(' :: acc.reverse ++ [')', conv])) ++ pyFmtGo env none rest
  | some acc, [')'] =>
      ((List.lookup (String.mk acc.reverse) env).map String.data).getD
        ('%' :: '(' :: acc.reverse ++ [')'])
  | some acc, c :: rest => pyFmtGo env (some (c :: acc)) rest

/-- Python `template % env` for the placeholder shapes used in this module. -/
def pyFormat (template : String) (env : List (String × String)) : String :=
  String.mk (pyFmtGo env none template.data)

/-- Python `s.replace("-", "_")` (line 129): a single-character
replacement, embedded as a character map. -/
def replace_dash (s : String) : String :=
  String.mk (s.data.map (fun c => if c = '-' then '_' else c))

/-- Python `s.split(sep)` for a one-character separator (line 130), on the
character list: split at every occurrence, keeping empty pieces, with the
empty string splitting to one empty piece. -/
def pySplitChar (sep : Char) : List Char → List (List Char)
  | [] => [[]]
  | c :: rest =>
      if c = sep then [] :: pySplitChar sep rest
      else
        match pySplitChar sep rest with
        | [] => [[c]]
        | g :: gs => (c :: g) :: gs

/-- Python `s.lower()`: character-wise lowercasing.  `Char.toLower` only
maps ASCII `A`-`Z`, whereas Python lowercases full Unicode; locale codes
are ASCII, where the two agree. -/
def pyLower (s : String) : String :=
  String.mk (s.data.map Char.toLower)

/-- Python `s.upper()`: character-wise uppercasing (ASCII, as `pyLower`). -/
def pyUpper (s : String) : String :=
  String.mk (s.data.map Char.toUpper)

/-- Python `s.startswith(p)`. -/
def pyStartsWith (s p : String) : Bool :=
  p.data.isPrefixOf s.data

/-- The process-wide registry state: globals `_default_locale`,
`_translations` and `_supported_locales` of lines 48-50.  The dict
`_translations` is embedded as an association list and the frozenset
`_supported_locales` as a list whose membership is what matters. -/
structure Registry where
  defaultLocale : String
  translations : List (String × TranslationCatalog)
  supported : List String

/-- The module's initial state (lines 48-50): default `"en_US"`, no
translations, supported = `frozenset([_default_locale])`. -/
def initial_registry : Registry :=
  { defaultLocale := "en_US", translations := [], supported := ["en_US"] }

/-- `set_default_locale(code)` (lines 67-78): stores `code` verbatim as the
default and recomputes `_supported_locales = frozenset(_translations.keys()
+ [_default_locale])`. -/
def set_default_locale (code : String) (r : Registry) : Registry :=
  { defaultLocale := code
    translations := r.translations
    supported := r.translations.map Prod.fst ++ [code] }

/-- `load_translations(directory, domain)` (lines 81-113).  The directory
walk and the per-language `gettext.translation` calls are I/O against the
external catalog store, so the embedding takes the outcome — the
association list `loaded` of languages whose catalogs loaded successfully
(failed languages are logged and skipped by the source) — as a parameter,
and performs the state update of lines 102 and 107 and 112:
`_translations` is replaced wholesale and `_supported_locales =
frozenset(_translations.keys() + [_default_locale])`. -/
def load_translations (loaded : List (String × TranslationCatalog)) (r : Registry) : Registry :=
  { defaultLocale := r.defaultLocale
    translations := loaded
    supported := loaded.map Prod.fst ++ [r.defaultLocale] }

/-- `get_supported_locales()` (lines 116-118). -/
def get_supported_locales (r : Registry) : List String :=
  r.supported

/-- The static `LOCALE_NAMES` table (lines 320-383), restricted to the
`"name"` values — the only key the module ever reads (line 157); the
`"name_en"` values are dead data.  The mojibake entries (`ja_JP`, `ko_KR`,
`zh_*`) are transcribed verbatim from the source. -/
def LOCALE_NAMES : List (String × String) :=
  [("af_ZA", "Afrikaans"),
   ("ar_AR", "العربية"),
   ("bg_BG", "Български"),
   ("bn_IN", "বাংলা"),
   ("bs_BA", "Bosanski"),
   ("ca_ES", "Català"),
   ("cs_CZ", "Čeština"),
   ("cy_GB", "Cymraeg"),
   ("da_DK", "Dansk"),
   ("de_DE", "Deutsch"),
   ("el_GR", "Ελληνικά"),
   ("en_GB", "English (UK)"),
   ("en_US", "English (US)"),
   ("es_ES", "Español (España)"),
   ("es_LA", "Español"),
   ("et_EE", "Eesti"),
   ("eu_ES", "Euskara"),
   ("fa_IR", "فارسی"),
   ("fi_FI", "Suomi"),
   ("fr_CA", "Français (Canada)"),
   ("fr_FR", "Français"),
   ("ga_IE", "Gaeilge"),
   ("gl_ES", "Galego"),
   ("he_IL", "עברית"),
   ("hi_IN", "हिन्दी"),
   ("hr_HR", "Hrvatski"),
   ("hu_HU", "Magyar"),
   ("id_ID", "Bahasa Indonesia"),
   ("is_IS", "Íslenska"),
   ("it_IT", "Italiano"),
   ("ja_JP", "ææè"),
   ("ko_KR", "íêì"),
   ("lt_LT", "Lietuvių"),
   ("lv_LV", "Latviešu"),
   ("mk_MK", "Македонски"),
   ("ml_IN", "മലയാളം"),
   ("ms_MY", "Bahasa Melayu"),
   ("nb_NO", "Norsk (bokmål)"),
   ("nl_NL", "Nederlands"),
   ("nn_NO", "Norsk (nynorsk)"),
   ("pa_IN", "ਪੰਜਾਬੀ"),
   ("pl_PL", "Polski"),
   ("pt_BR", "Português (Brasil)"),
   ("pt_PT", "Português (Portugal)"),
   ("ro_RO", "Română"),
   ("ru_RU", "Русский"),
   ("sk_SK", "Slovenčina"),
   ("sl_SI", "Slovenščina"),
   ("sq_AL", "Shqip"),
   ("sr_RS", "Српски"),
   ("sv_SE", "Svenska"),
   ("sw_KE", "Kiswahili"),
   ("ta_IN", "தமிழ்"),
   ("te_IN", "తెలుగు"),
   ("th_TH", "ภาษาไทย"),
   ("tl_PH", "Filipino"),
   ("tr_TR", "Türkçe"),
   ("uk_UA", "Українська"),
   ("vi_VN", "Tiếng Việt"),
   ("zh_CN", "äæ(çä)"),
   ("zh_HK", "äæ(éæ)"),
   ("zh_TW", "äæ(åç)")]

/-- The English keys translated into the 12 month names at `Locale`
construction (lines 168-171). -/
def monthKeys : List String :=
  ["January", "February", "March", "April", "May", "June", "July",
   "August", "September", "October", "November", "December"]

/-- The English keys translated into the 7 weekday names at `Locale`
construction (lines 172-174). -/
def weekdayKeys : List String :=
  ["Monday", "Tuesday", "Wednesday", "Thursday", "Friday", "Saturday", "Sunday"]

/-- The `Locale` value object (lines 121 and 155-174): resolved code,
display name, right-to-left flag, bound translator, and the month and
weekday names precomputed through the translator in `__init__`. -/
structure Locale where
  code : String
  name : String
  rtl : Bool
  translator : TranslationCatalog
  months : List String
  weekdays : List String

/-- `Locale.__init__(code, translator)` (lines 155-174).  The singular
translation used for the month/weekday keys is `translate` with no plural
arguments, which is the translator's `gettext` (see `Locale.translate`). -/
def Locale.ofCode (code : String) (translator : TranslationCatalog) : Locale :=
  { code := code
    name := (List.lookup code LOCALE_NAMES).getD "Unknown"
    rtl := ["fa", "ar", "he"].any (fun p => pyStartsWith code p)
    translator := translator
    months := monthKeys.map translator.gettext
    weekdays := weekdayKeys.map translator.gettext }

/-- `Locale.get(code)` (lines 144-153): look the code up in
`_translations` and fall back to the identity `NullTranslations` catalog
when it is absent; never fails. -/
def Locale.get (r : Registry) (code : String) : Locale :=
  Locale.ofCode code ((List.lookup code r.translations).getD nullTranslations)

/-- `Locale.translate(message, plural_message=None, count=None)`
(lines 176-189). -/
def Locale.translate (loc : Locale) (message : String)
    (plural_message : Option String) (count : Option Nat) : String :=
  match plural_message with
  | some pm =>
      match count with
      | some c => loc.translator.ngettext message pm c
      | none => loc.translator.gettext message
  | none => loc.translator.gettext message

/-- The `parts` of a candidate code in `get_closest` (lines 129-130):
`code.replace("-", "_").split("_")`. -/
def candidate_parts (code : String) : List String :=
  (pySplitChar '_' (replace_dash code).data).map String.mk

/-- The candidate code after the normalization of lines 129-134: `-`
replaced by `_`, and a two-part code rebuilt as
`parts[0].lower() + "_" + parts[1].upper()`. -/
def normalized_code (code : String) : String :=
  if (candidate_parts code).length = 2 then
    pyLower ((candidate_parts code).headD "") ++ "_" ++ pyUpper ((candidate_parts code).getD 1 "")
  else
    replace_dash code

/-- `Locale.get_closest(*locale_codes)` (lines 122-142): first match wins;
falsy (empty) candidates and candidates with more than two `_`-parts are
skipped; a candidate is tried first as its whole normalized code and then
as its lowercased first part; if no candidate matches, the default locale
is used. -/
def get_closest (r : Registry) : List String → Locale
  | [] => Locale.get r r.defaultLocale
  | code :: rest =>
      if code = "" then get_closest r rest
      else if 2 < (candidate_parts code).length then get_closest r rest
      else if normalized_code code ∈ r.supported then Locale.get r (normalized_code code)
      else if pyLower ((candidate_parts code).headD "") ∈ r.supported then
        Locale.get r (pyLower ((candidate_parts code).headD ""))
      else get_closest r rest

/-- Module-level `get(*locale_codes)` (lines 53-64). -/
def get (r : Registry) (locale_codes : List String) : Locale :=
  get_closest r locale_codes

/-- Specification-side restatement of the matcher's treatment of a single
candidate, used to state that `get_closest` is a first-match-wins scan:
`none` when the candidate is skipped or unsupported, `some code` when it
resolves to the supported code `code`. -/
def spec_match_candidate (r : Registry) (code : String) : Option String :=
  if code = "" then none
  else if 2 < (candidate_parts code).length then none
  else if normalized_code code ∈ r.supported then some (normalized_code code)
  else if pyLower ((candidate_parts code).headD "") ∈ r.supported then
    some (pyLower ((candidate_parts code).headD ""))
  else none


/-- Python `"%02d" % n` for a natural number: zero-pad to width 2. -/
def pad2 (n : Nat) : String :=
  if n < 10 then "0" ++ toString n else toString n

/-- Python `hour % 12 or 12` (lines 257 and 260): the 12-hour clock hour,
with 0 mapped to 12 because `0 or 12` takes the `or` fallback. -/
def twelveHour (hour : Nat) : Nat :=
  if hour % 12 = 0 then 12 else hour % 12

/-- The `str_time` computation of `format_date` (lines 251-261), factored
out of the function body verbatim: a 24-hour clock for every locale except
`en`, `en_US` and `zh_CN`; for `zh_CN` a CJK half-day marker (`上午` before
noon, `下午` from noon on) followed by the 12-hour time; for `en`/`en_US`
the 12-hour time followed by ` am`/` pm`. -/
def str_time (code : String) (hour minute : Nat) : String :=
  if ¬(code = "en" ∨ code = "en_US" ∨ code = "zh_CN") then
    toString hour ++ ":" ++ pad2 minute
  else if code = "zh_CN" then
    (if 12 ≤ hour then "下午" else "上午") ++ toString (twelveHour hour) ++ ":" ++ pad2 minute
  else
    toString (twelveHour hour) ++ ":" ++ pad2 minute ++ " " ++ (if 12 ≤ hour then "pm" else "am")

/-- Python 2 `round(num / (denom * 1.0))` for naturals `num` and a positive
even `denom` (the source uses 60 and 3600): rounding half away from zero,
which for non-negative arguments is rounding half up, i.e.
`⌊num / denom + 1 / 2⌋ = (2 * num + denom) / (2 * denom)`.  The float
division is exact enough that the float result rounds exactly like the
rational `num / denom`: for `num < 86400` the quotient is below `2 ^ 11`,
so the IEEE double error is below `2 ^ -42`, while a non-half quotient is
at least `1 / (2 * denom) ≥ 2 ^ -13` away from the nearest half-integer;
and an exact half-integer quotient (only possible for even `denom`) is
represented exactly. -/
def pyRound (num denom : Nat) : Nat :=
  (2 * num + denom) / (2 * denom)

/-- The clock context of one `format_date` call: the quantities lines
203-215 derive from `date`, `now` and `gmt_offset` before any formatting
happens.  `days` and `seconds` embed `difference.days` and
`difference.seconds` of the Python `timedelta` `difference = now - date`
after the clamp of lines 208-209 (so `days ≥ 0` and
`0 ≤ seconds < 86400` in any reachable context); `local_*` embed the
fields of `local_date = date - timedelta(minutes=gmt_offset)` (with
`local_month` 1-based and `local_weekday` 0-based from Monday, as in
`datetime`); `local_yesterday_day` embeds `local_yesterday.day`. -/
structure DateCtx where
  days : Int
  seconds : Nat
  local_hour : Nat
  local_minute : Nat
  local_day : Nat
  local_month : Nat
  local_year : Int
  local_weekday : Nat
  local_yesterday_day : Nat

/-- `Locale.format_date(date, gmt_offset, relative, shorter, full_format)`
(lines 191-269), from the point where the clock quantities of `DateCtx`
are in hand.  Control flow is embedded as follows: the source's early
returns inside `if not full_format: if relative and days == 0:` become the
first branch; the `format = None` / `if format is None:` template
selection becomes an `Option String`; the inline `str_time` computation is
the definition `str_time` above; the final `format % {...}` is `pyFormat`
with the dict of lines 263-269, where the month and weekday lists are
indexed as in the source (`month - 1`, `weekday`). -/
def format_date (loc : Locale) (ctx : DateCtx)
    (relative shorter full_format : Bool) : String :=
  -- lines 201-202: Russian locales force absolute dates
  let relative := if pyStartsWith loc.code "ru" then false else relative
  if full_format = false ∧ relative = true ∧ ctx.days = 0 then
    if ctx.seconds < 50 then
      pyFormat (loc.translate "1 second ago" (some "%(seconds)d seconds ago") (some ctx.seconds))
        [("seconds", toString ctx.seconds)]
    else if ctx.seconds < 50 * 60 then
      pyFormat
        (loc.translate "1 minute ago" (some "%(minutes)d minutes ago")
          (some (pyRound ctx.seconds 60)))
        [("minutes", toString (pyRound ctx.seconds 60))]
    else
      pyFormat
        (loc.translate "1 hour ago" (some "%(hours)d hours ago")
          (some (pyRound ctx.seconds 3600)))
        [("hours", toString (pyRound ctx.seconds 3600))]
  else
    let fmt : Option String :=
      if full_format = false then
        if ctx.days = 0 then some (loc.translate "%(time)s" none none)
        else if ctx.days = 1 ∧ ctx.local_day = ctx.local_yesterday_day ∧ relative = true then
          some (if shorter then loc.translate "yesterday" none none
                else loc.translate "yesterday at %(time)s" none none)
        else if ctx.days < 5 then
          some (if shorter then loc.translate "%(weekday)s" none none
                else loc.translate "%(weekday)s at %(time)s" none none)
        else if ctx.days < 334 then
          some (if shorter then loc.translate "%(month_name)s %(day)s" none none
                else loc.translate "%(month_name)s %(day)s at %(time)s" none none)
        else none
      else none
    let fmt := fmt.getD
      (if shorter then loc.translate "%(month_name)s %(day)s, %(year)s" none none
       else loc.translate "%(month_name)s %(day)s, %(year)s at %(time)s" none none)
    pyFormat fmt
      [("month_name", loc.months.getD (ctx.local_month - 1) ""),
       ("weekday", loc.weekdays.getD ctx.local_weekday ""),
       ("day", toString ctx.local_day),
       ("year", toString ctx.local_year),
       ("time", str_time loc.code ctx.local_hour ctx.local_minute)]

/-- `Locale.list(parts)` (lines 291-306): empty string for no parts, the
single part for one, and otherwise all but the last joined with `", "`
(`" و "` for Persian locale codes) and combined with the last through the
translated `"%(commas)s and %(last)s"` template. -/
def Locale.list (loc : Locale) (parts : List String) : String :=
  match parts with
  | [] => ""
  | [p] => p
  | _ =>
    pyFormat (loc.translate "%(commas)s and %(last)s" none none)
      [("commas",
        pyJoin (if pyStartsWith loc.code "fa" then " و " else ", ") parts.dropLast),
       ("last", parts.getLastD "")]

/-- The chunking loop of `friendly_number` (lines 313-316) applied to the
reversed character list: `while value: parts.append(value[-3:]);
value = value[:-3]` collects the characters three at a time from the right,
which on the reversed list is three at a time from the left (each chunk
reversed). -/
def chunks3 : List Char → List (List Char)
  | [] => []
  | [a] => [[a]]
  | [a, b] => [[a, b]]
  | a :: b :: c :: rest => [a, b, c] :: chunks3 rest

/-- The grouping of `friendly_number` on an already-rendered string: the
chunks of three characters from the right, joined left to right with
`","` (lines 312-317). -/
def group_digits (s : String) : String :=
  pyJoin "," (((chunks3 s.data.reverse).map (fun p => String.mk p.reverse)).reverse)

/-- `Locale.friendly_number(value)` (lines 308-317): the plain decimal
string unless the locale code is `en` or `en_US`, otherwise the decimal
string with `","` between three-character groups counted from the right
(the grouping operates on `str(value)` as a raw string, minus sign
included). -/
def Locale.friendly_number (loc : Locale) (value : Int) : String :=
  if ¬(loc.code = "en" ∨ loc.code = "en_US") then toString value
  else group_digits (toString value)

/-- Modelled from the spec (section 3): a locale code is canonical when it
has the shape `ll` or `ll_CC` — a two-letter lowercase language, optionally
followed by an underscore and a two-letter uppercase country.  This is the
spec-side comparator for the canonical-form invariant; the source has no
corresponding check. -/
def isCanonicalCode (s : String) : Bool :=
  match s.data with
  | [a, b] => a.isLower && b.isLower
  | [a, b, u, c, d] => a.isLower && b.isLower && u = '_' && c.isUpper && d.isUpper
  | _ => false


/-! ## Helper lemmas -/

/-- A registry with `supported = {"en_US", "pt_BR"}` and default `"en_US"`,
the configuration used by the spec's matcher examples. -/
def registry_enUS_ptBR : Registry :=
  { defaultLocale := "en_US"
    translations := []
    supported := ["en_US", "pt_BR"] }

theorem get_closest_code_eq (r : Registry) :
    ∀ cs : List String,
      (get_closest r cs).code = ((cs.filterMap (spec_match_candidate r)).headD r.defaultLocale) := by
  intro cs
  induction cs with
  | nil => rfl
  | cons code rest ih =>
      simp only [get_closest, spec_match_candidate, List.filterMap_cons]
      split_ifs with h1 h2 h3 h4
      · simpa using ih
      · simpa using ih
      · simp [Locale.get, Locale.ofCode]
      · simp [Locale.get, Locale.ofCode]
      · simpa using ih

theorem get_closest_code_mem (r : Registry) (h : r.defaultLocale ∈ r.supported) :
    ∀ cs : List String, (get_closest r cs).code ∈ r.supported := by
  intro cs
  induction cs with
  | nil => exact h
  | cons code rest ih =>
      simp only [get_closest]
      split_ifs with h1 h2 h3 h4
      · exact ih
      · exact ih
      · simpa [Locale.get, Locale.ofCode] using h3
      · simpa [Locale.get, Locale.ofCode] using h4
      · exact ih

/-! ## Claims -/

/-- C1: `Locale.get_closest` evaluates candidate codes in order with the
first match winning: empty candidates are skipped, `-` is replaced by `_`,
a candidate with more than two `_`-parts is skipped entirely, a two-part
candidate is normalized to `lower(part0) + "_" + upper(part1)` and
returned when the whole code is supported, otherwise the lowercased first
part is returned when it is supported, and when no candidate matches the
registry default is returned.  With `supported = {"en_US", "pt_BR"}` and
default `"en_US"`: `"pt-BR"` resolves to `"pt_BR"`, `"pt"` to `"en_US"`,
`["xx_YY", "pt_BR"]` to `"pt_BR"`, and no candidates to the default. -/
theorem get_closest_first_match_wins :
    (∀ (r : Registry) (cs : List String),
        (get_closest r cs).code = ((cs.filterMap (spec_match_candidate r)).headD r.defaultLocale))
    ∧ (get_closest registry_enUS_ptBR ["pt-BR"]).code = "pt_BR"
    ∧ (get_closest registry_enUS_ptBR ["pt"]).code = "en_US"
    ∧ (get_closest registry_enUS_ptBR ["xx_YY", "pt_BR"]).code = "pt_BR"
    ∧ (get_closest registry_enUS_ptBR []).code = "en_US" :=
  ⟨get_closest_code_eq, by decide, by decide, by decide, by decide⟩


/-- C4: `Locale.translate` selection rule: with no plural message the
result is the singular `gettext` lookup; with a plural message and a count
it is the plural-aware `ngettext` lookup, which selects the singular form
exactly when the count is 1 and the plural form for any other count; with
a plural message but no count the plural form is silently ignored and the
result equals the singular lookup `translate(message)`, with no error. -/
theorem translate_selection_rule (loc : Locale) (m pm : String) (c : Nat) :
    loc.translate m none none = loc.translator.lookup m
    ∧ loc.translate m (some pm) (some c) = loc.translator.ngettext m pm c
    ∧ loc.translate m (some pm) (some c) = loc.translator.pluralLookup m pm (c == 1)
    ∧ nullTranslations.ngettext m pm c = (if c = 1 then m else pm)
    ∧ loc.translate m (some pm) none = loc.translate m none none := by
  refine ⟨rfl, rfl, rfl, ?_, rfl⟩
  by_cases h : c = 1 <;> simp [nullTranslations, TranslationCatalog.ngettext, h]

/-- C5: the registry invariant `default ∈ supported` holds after every
mutating operation — both `set_default_locale` and a completed
`load_translations` recompute the supported set as the keys of the loaded
catalogs united with the current default — and under that invariant every
code `get_closest` returns (the default fallback included) is a member of
the supported set. -/
theorem default_mem_supported_invariant :
    (∀ (r : Registry) (code : String),
        (set_default_locale code r).defaultLocale ∈ (set_default_locale code r).supported)
    ∧ (∀ (r : Registry) (loaded : List (String × TranslationCatalog)),
        (load_translations loaded r).defaultLocale ∈ (load_translations loaded r).supported)
    ∧ (∀ (r : Registry) (cs : List String),
        r.defaultLocale ∈ r.supported → (get_closest r cs).code ∈ r.supported) := by
  refine ⟨?_, ?_, ?_⟩
  · intro r code
    simp [set_default_locale]
  · intro r loaded
    simp [load_translations]
  · intro r cs h
    exact get_closest_code_mem r h cs

/-- Witness for C5 at a concrete registry: the invariant holds for the
initial registry and `get_closest` then resolves `["xx"]` inside the
supported set. -/
theorem default_mem_supported_invariant_witness :
    initial_registry.defaultLocale ∈ initial_registry.supported
    ∧ (get_closest initial_registry ["xx"]).code ∈ initial_registry.supported :=
  ⟨by decide, default_mem_supported_invariant.2.2 initial_registry ["xx"] (by decide)⟩

/-- C6 counterexample: the claim that every code stored in the registry is
canonical (`ll` or `ll_CC`) is false — `set_default_locale` stores the
code verbatim, so passing `"PT"` puts the non-canonical code `"PT"` into
the supported set. -/
theorem stored_code_not_canonical :
    "PT" ∈ (set_default_locale "PT" initial_registry).supported
    ∧ isCanonicalCode "PT" = false := by
  constructor
  · decide
  · decide

/-- C6 (amended): locale codes are stored in the registry verbatim —
`set_default_locale` and `load_translations` perform no normalization, so
stored codes are canonical only when the directory names and the default
code supplied are; and `get_closest` only returns members of the supported
set (or the default), so every code it returns is canonical whenever every
supported code is canonical and the default is supported. -/
theorem stored_codes_verbatim_returned_codes_canonical :
    (∀ (r : Registry) (code : String),
        (set_default_locale code r).supported = r.translations.map Prod.fst ++ [code])
    ∧ (∀ (r : Registry) (loaded : List (String × TranslationCatalog)),
        (load_translations loaded r).supported = loaded.map Prod.fst ++ [r.defaultLocale])
    ∧ (∀ (r : Registry) (cs : List String),
        r.defaultLocale ∈ r.supported →
        (∀ c ∈ r.supported, isCanonicalCode c = true) →
        isCanonicalCode (get_closest r cs).code = true) := by
  refine ⟨fun r code => rfl, fun r loaded => rfl, ?_⟩
  intro r cs h hcanon
  exact hcanon _ (get_closest_code_mem r h cs)

/-- Witness for the amended C6 at a concrete registry whose supported
codes are all canonical. -/
theorem stored_codes_verbatim_returned_codes_canonical_witness :
    registry_enUS_ptBR.defaultLocale ∈ registry_enUS_ptBR.supported
    ∧ (∀ c ∈ registry_enUS_ptBR.supported, isCanonicalCode c = true)
    ∧ isCanonicalCode (get_closest registry_enUS_ptBR ["xx_YY", "pt-BR"]).code = true :=
  ⟨by decide, by decide,
    stored_codes_verbatim_returned_codes_canonical.2.2 registry_enUS_ptBR
      ["xx_YY", "pt-BR"] (by decide) (by decide)⟩

/-- C7: for a code absent from the loaded catalogs map, `Locale.get`
returns (totally, raising nothing) a `Locale` bound to the identity null
translator, and `translate` on that locale returns its input unchanged:
the singular message when there is no plural message or no count, and the
count-selected input message when the plural message and the count are
both present. -/
theorem locale_get_null_fallback (r : Registry) (code : String)
    (h : List.lookup code r.translations = none) :
    (Locale.get r code).translator = nullTranslations
    ∧ (∀ m, (Locale.get r code).translate m none none = m)
    ∧ (∀ m pm, (Locale.get r code).translate m (some pm) none = m)
    ∧ (∀ m pm c, (Locale.get r code).translate m (some pm) (some c) =
        (if c = 1 then m else pm)) := by
  refine ⟨?_, ?_, ?_, ?_⟩
  · simp [Locale.get, Locale.ofCode, h]
  · intro m
    simp [Locale.get, Locale.ofCode, Locale.translate, h, TranslationCatalog.gettext,
      nullTranslations]
  · intro m pm
    simp [Locale.get, Locale.ofCode, Locale.translate, h, TranslationCatalog.gettext,
      nullTranslations]
  · intro m pm c
    by_cases hc : c = 1 <;>
      simp [Locale.get, Locale.ofCode, Locale.translate, h, TranslationCatalog.ngettext,
        nullTranslations, hc]

/-- Witness for C7: the initial registry has no catalog for `"xx"`, and
the resulting locale translates identically. -/
theorem locale_get_null_fallback_witness :
    (Locale.get initial_registry "xx").translate "hello" none none = "hello"
    ∧ (Locale.get initial_registry "xx").translate "cat" (some "cats") (some 5) = "cats" := by
  constructor
  · exact (locale_get_null_fallback initial_registry "xx" rfl).2.1 "hello"
  · have h := (locale_get_null_fallback initial_registry "xx" rfl).2.2.2 "cat" "cats" 5
    simpa using h


theorem pyJoin_append_singleton (sep x : String) :
    ∀ l : List String, l ≠ [] → pyJoin sep (l ++ [x]) = pyJoin sep l ++ sep ++ x := by
  intro l
  induction l with
  | nil => intro h; exact absurd rfl h
  | cons y rest ih =>
      intro _
      cases rest with
      | nil => rfl
      | cons z rest2 =>
          have h2 := ih (List.cons_ne_nil z rest2)
          show y ++ sep ++ pyJoin sep ((z :: rest2) ++ [x]) =
            (y ++ sep ++ pyJoin sep (z :: rest2)) ++ sep ++ x
          rw [h2]
          simp only [String.append_assoc]

theorem chunks3_append :
    ∀ l m : List Char, l.length % 3 = 0 → chunks3 (l ++ m) = chunks3 l ++ chunks3 m
  | [], m, _ => by simp [chunks3]
  | [a], m, h => by simp at h
  | [a, b], m, h => by simp at h
  | a :: b :: c :: rest, m, h => by
      have hr : rest.length % 3 = 0 := by
        simp [List.length_cons] at h
        omega
      have hrec := chunks3_append rest m hr
      show chunks3 (a :: b :: c :: (rest ++ m)) = ([a, b, c] :: chunks3 rest) ++ chunks3 m
      rw [chunks3, hrec, List.cons_append]

theorem chunks3_ne_nil : ∀ l : List Char, l ≠ [] → chunks3 l ≠ []
  | [], h => absurd rfl h
  | [a], _ => by simp [chunks3]
  | [a, b], _ => by simp [chunks3]
  | a :: b :: c :: rest, _ => by simp [chunks3]

theorem group_digits_small (s : String) (h : s.length ≤ 3) : group_digits s = s := by
  obtain ⟨l⟩ := s
  have hl : l.length ≤ 3 := h
  match l, hl with
  | [], _ => rfl
  | [a], _ => rfl
  | [a, b], _ => rfl
  | [a, b, c], _ => rfl

theorem group_digits_append3 (s t : String) (hs : s ≠ "") (ht : t.length = 3) :
    group_digits (s ++ t) = group_digits s ++ "," ++ t := by
  obtain ⟨a, b, c, habc⟩ := List.length_eq_three.mp ht
  have hsd : s.data ≠ [] := fun hnil => hs (String.ext hnil)
  have hchunks : chunks3 (s ++ t).data.reverse = [c, b, a] :: chunks3 s.data.reverse := by
    rw [String.data_append, habc, List.reverse_append]
    exact chunks3_append [c, b, a] s.data.reverse (by simp)
  have hf : String.mk (([c, b, a] : List Char).reverse) = t := by
    cases t with
    | mk ld =>
        cases habc
        rfl
  have hne : ((chunks3 s.data.reverse).map (fun p => String.mk p.reverse)).reverse ≠ [] := by
    rw [Ne, List.reverse_eq_nil_iff, List.map_eq_nil_iff]
    exact chunks3_ne_nil _ (by rwa [Ne, List.reverse_eq_nil_iff])
  show pyJoin ","
      (((chunks3 (s ++ t).data.reverse).map (fun p => String.mk p.reverse)).reverse) =
    group_digits s ++ "," ++ t
  rw [hchunks, List.map_cons]
  show pyJoin ","
      ((String.mk (([c, b, a] : List Char).reverse) ::
        (chunks3 s.data.reverse).map (fun p => String.mk p.reverse)).reverse) =
    group_digits s ++ "," ++ t
  rw [hf, List.reverse_cons, pyJoin_append_singleton "," t _ hne]
  rfl


theorem toDigitsCore_length_lt (b : Nat) :
    ∀ (fuel n : Nat) (acc : List Char),
      0 < fuel → acc.length < (Nat.toDigitsCore b fuel n acc).length := by
  intro fuel
  induction fuel with
  | zero => intro n acc h; omega
  | succ f ih =>
      intro n acc _
      rw [Nat.toDigitsCore]
      by_cases hnb : n / b = 0
      · simp [hnb]
      · simp only [hnb, if_false, ite_false]
        rcases Nat.eq_zero_or_pos f with hf | hf
        · subst hf
          rw [Nat.toDigitsCore]
          simp
        · have h2 := ih (n / b) (Nat.digitChar (n % b) :: acc) hf
          simp only [List.length_cons] at h2
          omega

theorem natRepr_ne_empty (n : Nat) : Nat.repr n ≠ "" := by
  intro he
  have h1 : 0 < (Nat.toDigitsCore 10 (n + 1) n []).length :=
    toDigitsCore_length_lt 10 (n + 1) n [] (Nat.succ_pos n)
  have h2 : (Nat.repr n).data = Nat.toDigitsCore 10 (n + 1) n [] := rfl
  rw [he] at h2
  simp only [show ("" : String).data = [] from rfl] at h2
  rw [← h2] at h1
  simp at h1

theorem int_toString_neg (v : Int) (h : v < 0) :
    toString v = "-" ++ toString v.natAbs := by
  cases v with
  | ofNat m =>
      rw [Int.ofNat_eq_coe] at h
      omega
  | negSucc m => rfl

/-- C8: `friendly_number` of a non-negative integer: for every locale
other than `en`/`en_US` it is the plain decimal string, unchanged; for
`en`/`en_US` it is the decimal string with `","` inserted every three
digits counted from the right — stated as the recurrence that the final
three characters always form the last group (`group_digits (s ++ t) =
group_digits s ++ "," ++ t` for three-character `t`), strings of at most
three characters being left whole — with `1234567` rendering as
`"1,234,567"` under `en_US` and as `"1234567"` under `fr_FR`. -/
theorem friendly_number_grouping :
    (∀ (loc : Locale) (v : Int), loc.code ≠ "en" → loc.code ≠ "en_US" →
        loc.friendly_number v = toString v)
    ∧ (∀ (loc : Locale) (v : Int), (loc.code = "en" ∨ loc.code = "en_US") →
        loc.friendly_number v = group_digits (toString v))
    ∧ (∀ s : String, s.length ≤ 3 → group_digits s = s)
    ∧ (∀ s t : String, s ≠ "" → t.length = 3 →
        group_digits (s ++ t) = group_digits s ++ "," ++ t)
    ∧ (Locale.ofCode "en_US" nullTranslations).friendly_number 1234567 = "1,234,567"
    ∧ (Locale.ofCode "en" nullTranslations).friendly_number 1234567 = "1,234,567"
    ∧ (Locale.ofCode "fr_FR" nullTranslations).friendly_number 1234567 = "1234567" := by
  refine ⟨?_, ?_, group_digits_small, group_digits_append3, by decide, by decide, by decide⟩
  · intro loc v h1 h2
    simp [Locale.friendly_number, h1, h2]
  · intro loc v h
    simp [Locale.friendly_number, h]

/-- Witness for C8 at concrete inputs: the grouping recurrence applied to
`"1234" ++ "567"`, and the plain-string branch at `fr_FR`. -/
theorem friendly_number_grouping_witness :
    (("1234" : String) ≠ "" ∧ ("567" : String).length = 3
      ∧ group_digits ("1234" ++ "567") = group_digits "1234" ++ "," ++ "567")
    ∧ ((Locale.ofCode "fr_FR" nullTranslations).code ≠ "en"
      ∧ (Locale.ofCode "fr_FR" nullTranslations).friendly_number 7 = toString (7 : Int)) :=
  ⟨⟨by decide, by decide,
      friendly_number_grouping.2.2.2.1 "1234" "567" (by decide) (by decide)⟩,
    ⟨by decide,
      friendly_number_grouping.1 (Locale.ofCode "fr_FR" nullTranslations) 7
        (by decide) (by decide)⟩⟩

/-- C10 counterexample: the claim's example `friendly_number(-123456) =
"-123,456"` is false — the code groups the raw string `"-123456"` from
the right, giving `"-,123,456"` (seven characters, so the minus sign ends
up alone in the leading group). -/
theorem friendly_number_neg_example_false :
    (Locale.ofCode "en_US" nullTranslations).friendly_number (-123456) = "-,123,456"
    ∧ (Locale.ofCode "en_US" nullTranslations).friendly_number (-123456) ≠ "-123,456" := by
  constructor
  · decide
  · decide

/-- C10 (amended): under `en`/`en_US` the three-character grouping is
applied to the full decimal string including the minus sign, so for every
negative integer whose absolute value has a digit count that is a multiple
of three the sign is emitted as its own group and the result starts with
`"-,"` — `friendly_number(-123) = "-,123"` and `friendly_number(-123456)
= "-,123,456"`. -/
theorem friendly_number_negative_sign_group :
    (∀ v : Int, (Locale.ofCode "en_US" nullTranslations).friendly_number v
        = group_digits (toString v))
    ∧ (∀ v : Int, v < 0 → (toString v.natAbs).length % 3 = 0 →
        ∃ z, (Locale.ofCode "en_US" nullTranslations).friendly_number v = "-," ++ z)
    ∧ (Locale.ofCode "en_US" nullTranslations).friendly_number (-123) = "-,123"
    ∧ (Locale.ofCode "en_US" nullTranslations).friendly_number (-123456) = "-,123,456" := by
  refine ⟨?_, ?_, by decide, by decide⟩
  · intro v
    simp [Locale.friendly_number, Locale.ofCode]
  · intro v hv hlen
    have hts : toString v = "-" ++ toString v.natAbs := int_toString_neg v hv
    have hds : (toString v.natAbs).data ≠ [] := by
      intro hnil
      exact natRepr_ne_empty v.natAbs (String.ext hnil)
    have hdata : (toString v).data = '-' :: (toString v.natAbs).data := by
      rw [hts]
      rfl
    have hlen3 : ((toString v.natAbs).data.reverse).length % 3 = 0 := by
      rw [List.length_reverse]
      exact hlen
    have hchunks : chunks3 (toString v).data.reverse
        = chunks3 (toString v.natAbs).data.reverse ++ [['-']] := by
      rw [hdata, List.reverse_cons]
      rw [chunks3_append _ ['-'] hlen3]
      rfl
    have hmap : ((chunks3 (toString v).data.reverse).map
          (fun p => String.mk p.reverse)).reverse
        = "-" :: ((chunks3 (toString v.natAbs).data.reverse).map
          (fun p => String.mk p.reverse)).reverse := by
      rw [hchunks, List.map_append, List.reverse_append]
      rfl
    have hMne : ((chunks3 (toString v.natAbs).data.reverse).map
          (fun p => String.mk p.reverse)).reverse ≠ [] := by
      rw [Ne, List.reverse_eq_nil_iff, List.map_eq_nil_iff]
      exact chunks3_ne_nil _ (by rwa [Ne, List.reverse_eq_nil_iff])
    obtain ⟨w, ws, hw⟩ :
        ∃ w ws, ((chunks3 (toString v.natAbs).data.reverse).map
          (fun p => String.mk p.reverse)).reverse = w :: ws := by
      rcases hM : ((chunks3 (toString v.natAbs).data.reverse).map
          (fun p => String.mk p.reverse)).reverse with _ | ⟨w, ws⟩
      · exact absurd hM hMne
      · exact ⟨w, ws, hM⟩
    refine ⟨pyJoin "," (w :: ws), ?_⟩
    show pyJoin "," (((chunks3 (toString v).data.reverse).map
        (fun p => String.mk p.reverse)).reverse) = "-," ++ pyJoin "," (w :: ws)
    rw [hmap, hw]
    show "-" ++ "," ++ pyJoin "," (w :: ws) = "-," ++ pyJoin "," (w :: ws)
    rfl

/-- Witness for the amended C10 at `v = -123`. -/
theorem friendly_number_negative_sign_group_witness :
    ((-123 : Int) < 0 ∧ (toString (Int.natAbs (-123))).length % 3 = 0)
    ∧ ∃ z, (Locale.ofCode "en_US" nullTranslations).friendly_number (-123) = "-," ++ z :=
  ⟨⟨by decide, by decide⟩,
    friendly_number_negative_sign_group.2.1 (-123) (by decide) (by decide)⟩


theorem pyFormat_commas_last (c l : String) :
    pyFormat "%(commas)s and %(last)s" [("commas", c), ("last", l)] = c ++ " and " ++ l := by
  show String.mk
      (pyFmtGo [("commas", c), ("last", l)] none ("%(commas)s and %(last)s".data)) =
    c ++ " and " ++ l
  rw [show ("%(commas)s and %(last)s" : String).data =
    ['%', '(', 'c', 'o', 'm', 'm', 'a', 's', ')', 's', ' ', 'a', 'n', 'd', ' ',
     '%', '(', 'l', 'a', 's', 't', ')', 's'] from rfl]
  simp only [pyFmtGo, List.lookup]
  norm_num
  apply String.ext
  simp [String.data_append]


theorem pyFormat_seconds_plural (v : String) :
    pyFormat "%(seconds)d seconds ago" [("seconds", v)] = v ++ " seconds ago" := by
  show String.mk (pyFmtGo [("seconds", v)] none ("%(seconds)d seconds ago".data)) = _
  rw [show ("%(seconds)d seconds ago" : String).data =
    ['%', '(', 's', 'e', 'c', 'o', 'n', 'd', 's', ')', 'd', ' ', 's', 'e', 'c',
     'o', 'n', 'd', 's', ' ', 'a', 'g', 'o'] from rfl]
  simp only [pyFmtGo, List.lookup]
  norm_num
  apply String.ext
  simp [String.data_append]

theorem pyFormat_seconds_singular (v : String) :
    pyFormat "1 second ago" [("seconds", v)] = "1 second ago" := by
  show String.mk (pyFmtGo [("seconds", v)] none ("1 second ago".data)) = _
  rw [show ("1 second ago" : String).data =
    ['1', ' ', 's', 'e', 'c', 'o', 'n', 'd', ' ', 'a', 'g', 'o'] from rfl]
  simp only [pyFmtGo]

theorem pyFormat_minutes_plural (v : String) :
    pyFormat "%(minutes)d minutes ago" [("minutes", v)] = v ++ " minutes ago" := by
  show String.mk (pyFmtGo [("minutes", v)] none ("%(minutes)d minutes ago".data)) = _
  rw [show ("%(minutes)d minutes ago" : String).data =
    ['%', '(', 'm', 'i', 'n', 'u', 't', 'e', 's', ')', 'd', ' ', 'm', 'i', 'n',
     'u', 't', 'e', 's', ' ', 'a', 'g', 'o'] from rfl]
  simp only [pyFmtGo, List.lookup]
  norm_num
  apply String.ext
  simp [String.data_append]

theorem pyFormat_minutes_singular (v : String) :
    pyFormat "1 minute ago" [("minutes", v)] = "1 minute ago" := by
  show String.mk (pyFmtGo [("minutes", v)] none ("1 minute ago".data)) = _
  rw [show ("1 minute ago" : String).data =
    ['1', ' ', 'm', 'i', 'n', 'u', 't', 'e', ' ', 'a', 'g', 'o'] from rfl]
  simp only [pyFmtGo]

theorem pyFormat_hours_plural (v : String) :
    pyFormat "%(hours)d hours ago" [("hours", v)] = v ++ " hours ago" := by
  show String.mk (pyFmtGo [("hours", v)] none ("%(hours)d hours ago".data)) = _
  rw [show ("%(hours)d hours ago" : String).data =
    ['%', '(', 'h', 'o', 'u', 'r', 's', ')', 'd', ' ', 'h', 'o', 'u', 'r', 's',
     ' ', 'a', 'g', 'o'] from rfl]
  simp only [pyFmtGo, List.lookup]
  norm_num
  apply String.ext
  simp [String.data_append]

theorem pyFormat_hours_singular (v : String) :
    pyFormat "1 hour ago" [("hours", v)] = "1 hour ago" := by
  show String.mk (pyFmtGo [("hours", v)] none ("1 hour ago".data)) = _
  rw [show ("1 hour ago" : String).data =
    ['1', ' ', 'h', 'o', 'u', 'r', ' ', 'a', 'g', 'o'] from rfl]
  simp only [pyFmtGo]

theorem pyFormat_time_only (m w d y t : String) :
    pyFormat "%(time)s"
      [("month_name", m), ("weekday", w), ("day", d), ("year", y), ("time", t)] = t := by
  show String.mk
      (pyFmtGo [("month_name", m), ("weekday", w), ("day", d), ("year", y), ("time", t)]
        none ("%(time)s".data)) = t
  rw [show ("%(time)s" : String).data = ['%', '(', 't', 'i', 'm', 'e', ')', 's'] from rfl]
  simp only [pyFmtGo, List.lookup]
  norm_num
  apply String.ext
  simp [String.data_append]

/-- C9: `Locale.list` returns the empty string for an empty sequence, the
single element for a one-element sequence, and otherwise joins all
elements but the last with `", "` (with `" و "` when the locale code
starts with `"fa"`) and combines the result with the last element through
the translated `"%(commas)s and %(last)s"` template — so under an
identity-catalog locale `["A"]` gives `"A"`, `["A","B"]` gives `"A and
B"`, and `["A","B","C"]` gives `"A, B and C"`. -/
theorem locale_list_spec :
    (∀ loc : Locale, loc.list [] = "")
    ∧ (∀ (loc : Locale) (p : String), loc.list [p] = p)
    ∧ (∀ (code : String) (ps : List String), 2 ≤ ps.length →
        (Locale.ofCode code nullTranslations).list ps =
          pyJoin (if pyStartsWith code "fa" then " و " else ", ") ps.dropLast
            ++ " and " ++ ps.getLastD "")
    ∧ (Locale.ofCode "en_US" nullTranslations).list ["A"] = "A"
    ∧ (Locale.ofCode "en_US" nullTranslations).list ["A", "B"] = "A and B"
    ∧ (Locale.ofCode "en_US" nullTranslations).list ["A", "B", "C"] = "A, B and C"
    ∧ (Locale.ofCode "fa_IR" nullTranslations).list ["A", "B", "C"] = "A و B and C" := by
  refine ⟨fun loc => rfl, fun loc p => rfl, ?_, by decide, by decide, by decide, by decide⟩
  intro code ps hlen
  match ps, hlen with
  | a :: b :: rest, _ =>
      show pyFormat "%(commas)s and %(last)s"
          [("commas",
            pyJoin (if pyStartsWith code "fa" then " و " else ", ")
              (a :: b :: rest).dropLast),
           ("last", (a :: b :: rest).getLastD "")] = _
      rw [pyFormat_commas_last]

/-- Witness for C9, instantiating the general join at a four-element
list. -/
theorem locale_list_spec_witness :
    2 ≤ (["A", "B", "C", "D"] : List String).length
    ∧ (Locale.ofCode "en_US" nullTranslations).list ["A", "B", "C", "D"]
        = "A, B, C and D" := by
  constructor
  · decide
  · rw [locale_list_spec.2.2.1 "en_US" ["A", "B", "C", "D"] (by decide)]
    decide


/-- A concrete clock context with a same-day difference of exactly 3600
seconds, used by the `format_date` witnesses. -/
def sample_ctx : DateCtx :=
  { days := 0
    seconds := 3600
    local_hour := 15
    local_minute := 5
    local_day := 10
    local_month := 7
    local_year := 1980
    local_weekday := 3
    local_yesterday_day := 9 }

/-- C2: in `format_date` with `full_format` false, `relative` true (not
overridden by the `ru` locale prefix) and a non-negative difference with
`days == 0`: seconds strictly below 50 produce the seconds phrase with
that count (singular exactly when seconds == 1); otherwise seconds
strictly below 3000 (50×60) produce the minutes phrase with
`minutes = round(seconds/60)`; otherwise the hours phrase with
`hours = round(seconds/3600)` — no day-based template is reached.  In
particular 3600 seconds with `days == 0` yield the hour-based output. -/
theorem format_date_relative_thresholds (loc : Locale) (ctx : DateCtx) (sh : Bool)
    (hru : pyStartsWith loc.code "ru" = false) (hd : ctx.days = 0) :
    (ctx.seconds < 50 →
      format_date loc ctx true sh false =
        pyFormat (loc.translator.ngettext "1 second ago" "%(seconds)d seconds ago" ctx.seconds)
          [("seconds", toString ctx.seconds)])
    ∧ (50 ≤ ctx.seconds → ctx.seconds < 3000 →
      format_date loc ctx true sh false =
        pyFormat
          (loc.translator.ngettext "1 minute ago" "%(minutes)d minutes ago"
            (pyRound ctx.seconds 60))
          [("minutes", toString (pyRound ctx.seconds 60))])
    ∧ (3000 ≤ ctx.seconds →
      format_date loc ctx true sh false =
        pyFormat
          (loc.translator.ngettext "1 hour ago" "%(hours)d hours ago"
            (pyRound ctx.seconds 3600))
          [("hours", toString (pyRound ctx.seconds 3600))])
    ∧ (loc.translator = nullTranslations →
      (ctx.seconds < 50 →
        format_date loc ctx true sh false =
          (if ctx.seconds = 1 then "1 second ago"
           else toString ctx.seconds ++ " seconds ago"))
      ∧ (50 ≤ ctx.seconds → ctx.seconds < 3000 →
        format_date loc ctx true sh false =
          (if pyRound ctx.seconds 60 = 1 then "1 minute ago"
           else toString (pyRound ctx.seconds 60) ++ " minutes ago"))
      ∧ (3000 ≤ ctx.seconds →
        format_date loc ctx true sh false =
          (if pyRound ctx.seconds 3600 = 1 then "1 hour ago"
           else toString (pyRound ctx.seconds 3600) ++ " hours ago"))) := by
  have hsec : ctx.seconds < 50 →
      format_date loc ctx true sh false =
        pyFormat (loc.translator.ngettext "1 second ago" "%(seconds)d seconds ago" ctx.seconds)
          [("seconds", toString ctx.seconds)] := by
    intro h
    simp [format_date, hru, hd, h, Locale.translate]
  have hmin : 50 ≤ ctx.seconds → ctx.seconds < 3000 →
      format_date loc ctx true sh false =
        pyFormat
          (loc.translator.ngettext "1 minute ago" "%(minutes)d minutes ago"
            (pyRound ctx.seconds 60))
          [("minutes", toString (pyRound ctx.seconds 60))] := by
    intro h1 h2
    have hn : ¬ ctx.seconds < 50 := by omega
    simp [format_date, hru, hd, hn, h2, Locale.translate]
  have hhour : 3000 ≤ ctx.seconds →
      format_date loc ctx true sh false =
        pyFormat
          (loc.translator.ngettext "1 hour ago" "%(hours)d hours ago"
            (pyRound ctx.seconds 3600))
          [("hours", toString (pyRound ctx.seconds 3600))] := by
    intro h1
    have hn : ¬ ctx.seconds < 50 := by omega
    have hn2 : ¬ ctx.seconds < 3000 := by omega
    simp [format_date, hru, hd, hn, hn2, Locale.translate]
  refine ⟨hsec, hmin, hhour, ?_⟩
  intro htr
  refine ⟨?_, ?_, ?_⟩
  · intro h
    rw [hsec h, htr]
    by_cases h1 : ctx.seconds = 1
    · simp [TranslationCatalog.ngettext, nullTranslations, h1, pyFormat_seconds_singular]
    · simp [TranslationCatalog.ngettext, nullTranslations, h1, pyFormat_seconds_plural]
  · intro h1 h2
    rw [hmin h1 h2, htr]
    by_cases hm : pyRound ctx.seconds 60 = 1
    · simp [TranslationCatalog.ngettext, nullTranslations, hm, pyFormat_minutes_singular]
    · simp [TranslationCatalog.ngettext, nullTranslations, hm, pyFormat_minutes_plural]
  · intro h1
    rw [hhour h1, htr]
    by_cases hh : pyRound ctx.seconds 3600 = 1
    · simp [TranslationCatalog.ngettext, nullTranslations, hh, pyFormat_hours_singular]
    · simp [TranslationCatalog.ngettext, nullTranslations, hh, pyFormat_hours_plural]

/-- Witness for C2: an elapsed time of exactly 3600 seconds on the same
day yields the hour-based phrase `"1 hour ago"`, not the minute-based
one. -/
theorem format_date_relative_thresholds_witness :
    pyStartsWith "en_US" "ru" = false
    ∧ format_date (Locale.ofCode "en_US" nullTranslations) sample_ctx true false false
        = "1 hour ago" := by
  constructor
  · decide
  · have h :=
      ((format_date_relative_thresholds (Locale.ofCode "en_US" nullTranslations)
        sample_ctx false (by decide) rfl).2.2.2 rfl).2.2 (by decide)
    simpa using h

/-- C3: the time-of-day string substituted into `format_date`'s chosen
template is rendered by locale code: 24-hour `H:MM` for every code other
than exactly `en`, `en_US` or `zh_CN`; for `zh_CN` a CJK half-day marker
(morning glyph before noon, afternoon glyph from noon on) followed by the
12-hour time; for `en`/`en_US` the 12-hour time followed by ` am`/` pm`;
and with `days == 0`, `relative` false and `full_format` false the chosen
template renders exactly this time string. -/
theorem format_date_time_rendering (code : String) (hour minute : Nat) :
    ((code ≠ "en" ∧ code ≠ "en_US" ∧ code ≠ "zh_CN") →
      str_time code hour minute = toString hour ++ ":" ++ pad2 minute)
    ∧ (str_time "zh_CN" hour minute =
        (if hour < 12 then "上午" else "下午") ++ toString (twelveHour hour) ++ ":"
          ++ pad2 minute)
    ∧ ((code = "en" ∨ code = "en_US") →
      str_time code hour minute =
        toString (twelveHour hour) ++ ":" ++ pad2 minute
          ++ (if hour < 12 then " am" else " pm"))
    ∧ (∀ (ctx : DateCtx) (sh : Bool), ctx.days = 0 →
        format_date (Locale.ofCode code nullTranslations) ctx false sh false =
          str_time code ctx.local_hour ctx.local_minute) := by
  refine ⟨?_, ?_, ?_, ?_⟩
  · intro h
    simp [str_time, h.1, h.2.1, h.2.2]
  · by_cases h12 : hour < 12
    · have hn : ¬ 12 ≤ hour := by omega
      simp [str_time, h12, hn]
    · have hn : 12 ≤ hour := by omega
      simp [str_time, h12, hn]
  · intro h
    by_cases h12 : hour < 12
    · have hn : ¬ 12 ≤ hour := by omega
      rcases h with h | h <;> subst h <;> simp [str_time, h12, hn, String.append_assoc]
    · have hn : 12 ≤ hour := by omega
      rcases h with h | h <;> subst h <;> simp [str_time, h12, hn, String.append_assoc]
  · intro ctx sh hd
    simp [format_date, hd, Locale.translate, TranslationCatalog.gettext, nullTranslations,
      Locale.ofCode, pyFormat_time_only]

/-- Witness for C3: a 24-hour rendering for `fr_FR` at 15:05, and the
same-day absolute `format_date` call substituting exactly that time
string. -/
theorem format_date_time_rendering_witness :
    (("fr_FR" : String) ≠ "en" ∧ ("fr_FR" : String) ≠ "en_US"
      ∧ ("fr_FR" : String) ≠ "zh_CN")
    ∧ str_time "fr_FR" 15 5 = toString 15 ++ ":" ++ pad2 5
    ∧ format_date (Locale.ofCode "fr_FR" nullTranslations) sample_ctx false false false
        = str_time "fr_FR" sample_ctx.local_hour sample_ctx.local_minute :=
  ⟨⟨by decide, by decide, by decide⟩,
    (format_date_time_rendering "fr_FR" 15 5).1 ⟨by decide, by decide, by decide⟩,
    (format_date_time_rendering "fr_FR" 15 5).2.2.2 sample_ctx false rfl⟩

end Cyclone
